import Mathlib

/-!
Verification of the squirrel SQL statement builder fragment-composition and
argument-binding engine, shallowly embedded in Lean.

The repository ships src/select.go (the SELECT statement orchestration) plus
tests and a usage guide.  The fragment rendering engine itself (predicates,
conjunctions, Not, raw expressions, CASE expressions, the placeholder
rewriter, the DELETE builder) is not part of the sources provided, so those
parts are modelled from the specification, pinned wherever possible by the
expectations of the tests shipped in the repository.  Definitions that are
modelled from the spec carry a doc comment starting with the words Modelled
from the spec.
-/

namespace Squirrel

/-- A bindable argument value: the scalars the engine binds (integers,
strings, booleans, and floating literals carried opaquely as their source
text, since the engine never computes with them). -/
inductive Val where
  | i (n : Int)
  | s (str : String)
  | b (bv : Bool)
  | f (lit : String)
deriving DecidableEq, Repr

/-- An argument supplied to a raw expression: either a scalar value or a
collection (Go slice/array).  The Go code decides scalar-versus-collection by
a reflection type switch; here the tag is decided at construction, as the
spec design notes direct. -/
inductive Arg where
  | scalar (v : Val)
  | coll (vs : List Val)
deriving DecidableEq, Repr

/-- A comparison value inside a Predicate: nil, a scalar, or a collection. -/
inductive PredVal where
  | null
  | scalar (v : Val)
  | coll (vs : List Val)
deriving DecidableEq, Repr

/-- The comparison kinds of the Predicate family (Eq, NotEq, Lt, LtOrEq, Gt,
GtOrEq, Like, NotLike). -/
inductive Comp where
  | eq
  | notEq
  | lt
  | ltOrEq
  | gt
  | gtOrEq
  | like
  | notLike
deriving DecidableEq, Repr

mutual

/-- The closed sum of Fragment variants: comparison Predicates, structural
conjunctions And and Or, Not, raw expressions, and CASE expressions. -/
inductive Fragment where
  | pred (op : Comp) (pairs : List (String × PredVal))
  | conjAnd (cs : FragList)
  | conjOr (cs : FragList)
  | negate (c : Fragment)
  | raw (tpl : String) (args : List Arg)
  | cas (subj : CaseSlot) (whens : WhenList) (els : CaseSlot)

/-- A condition/result slot of a CASE expression: absent, a textual value
emitted verbatim, a bindable scalar, or a nested Fragment. -/
inductive CaseSlot where
  | absent
  | txt (s : String)
  | val (v : Val)
  | frag (f : Fragment)

/-- An ordered sequence of child Fragments (the children of And and Or). -/
inductive FragList where
  | nil
  | cons (f : Fragment) (fs : FragList)

/-- The ordered WHEN/THEN pairs of a CASE expression. -/
inductive WhenList where
  | nil
  | cons (cond : CaseSlot) (res : CaseSlot) (rest : WhenList)

end

/-- The SQL operator token of each comparison kind. -/
def opStr : Comp → String
  | .eq => "="
  | .notEq => "<>"
  | .lt => "<"
  | .ltOrEq => "<="
  | .gt => ">"
  | .gtOrEq => ">="
  | .like => "LIKE"
  | .notLike => "NOT LIKE"

/-- A comma-joined list of n positional markers, as used inside IN lists and
expanded slice arguments. -/
def placeholdersFor : Nat → List Char
  | 0 => []
  | n + 1 => if n = 0 then ['?'] else '?' :: ',' :: placeholdersFor n

/-- The always-true literal produced by an empty And. -/
def sqlTrue : String := "(1=1)"

/-- The always-false literal produced by an empty Or. -/
def sqlFalse : String := "(1=0)"

/-- Modelled from the spec: rendering of one field/value pair of a
comparison Predicate (section 4.2 of the spec; the repository does not ship
expr.go).  Equality and inequality dispatch on nil, empty collection,
non-empty collection, and scalar; ordering and pattern comparisons reject
nil and collection values. -/
def renderPair (op : Comp) (field : String) (v : PredVal) : Except String (List Char × List Val) :=
  match op, v with
  | .eq, .null => .ok (field.data ++ " IS NULL".data, [])
  | .notEq, .null => .ok (field.data ++ " IS NOT NULL".data, [])
  | .eq, .coll [] => .ok (sqlFalse.data, [])
  | .notEq, .coll [] => .ok (sqlTrue.data, [])
  | .eq, .coll vs => .ok (field.data ++ " IN (".data ++ placeholdersFor vs.length ++ [')'], vs)
  | .notEq, .coll vs => .ok (field.data ++ " NOT IN (".data ++ placeholdersFor vs.length ++ [')'], vs)
  | op, .scalar v => .ok (field.data ++ ' ' :: (opStr op).data ++ " ?".data, [v])
  | _, _ => .error "unsupported value type for this comparison"

/-- Renders a Predicate pair list in order, collecting the per-pair texts
and concatenating the argument lists. -/
def renderPairs (op : Comp) : List (String × PredVal) → Except String (List (List Char) × List Val)
  | [] => .ok ([], [])
  | (f, v) :: rest =>
    match renderPair op f v, renderPairs op rest with
    | .error e, _ => .error e
    | _, .error e => .error e
    | .ok p, .ok ps => .ok (p.1 :: ps.1, p.2 ++ ps.2)

/-- Joins texts with a separator between consecutive elements. -/
def joinSep (sep : List Char) : List (List Char) → List Char
  | [] => []
  | [t] => t
  | t :: ts => t ++ sep ++ joinSep sep ts

/-- Keeps the texts of non-empty renderings together with their arguments,
dropping empty renderings entirely (they contribute neither text nor
separator nor arguments, per the Composer contract of spec section 4.1). -/
def collectParts : List (List Char × List Val) → List (List Char) × List Val
  | [] => ([], [])
  | (t, a) :: rest =>
    if t = [] then collectParts rest
    else (t :: (collectParts rest).1, a ++ (collectParts rest).2)

/-- Modelled from the spec: raw-expression slice expansion (section 4.4; the
repository does not ship expr.go).  Scans the template left to right; each
marker consumes the next argument; a scalar stays one marker, a non-empty
collection becomes a parenthesized comma-joined marker list with its
elements spliced in place, an empty collection is a hard error with the
message pinned by the usage guide in the repository, and a marker/argument
count mismatch is an error. -/
def expandChars : List Char → List Arg → Except String (List Char × List Val)
  | [], args => if args.isEmpty then .ok ([], []) else .error "expr marker and argument counts differ"
  | c :: cs, args =>
    if c = '?' then
      match args with
      | [] => .error "expr marker and argument counts differ"
      | .scalar v :: rest =>
        match expandChars cs rest with
        | .error e => .error e
        | .ok r => .ok ('?' :: r.1, v :: r.2)
      | .coll [] :: _ => .error "empty slice passed to Expr placeholder"
      | .coll (v :: vs) :: rest =>
        match expandChars cs rest with
        | .error e => .error e
        | .ok r => .ok ('(' :: (placeholdersFor (v :: vs).length ++ ')' :: r.1), (v :: vs) ++ r.2)
    else
      match expandChars cs args with
      | .error e => .error e
      | .ok r => .ok (c :: r.1, r.2)

mutual

/-- Modelled from the spec: the recursive Fragment render protocol (spec
sections 4.1 to 4.5; the repository ships only the SELECT orchestration, not
the engine).  Produces the SQL text as a character list plus the ordered
argument list, or an error.  Non-empty And and Or self-parenthesize; empty
And and Or render the fixed always-true and always-false literals; Not
prefixes the child text; raw expressions expand collection arguments; CASE
requires at least one WHEN pair at render time (error message pinned by the
repository test TestCaseWithNoWhenClause). -/
def render : Fragment → Except String (List Char × List Val)
  | .pred op pairs =>
    match renderPairs op pairs with
    | .error e => .error e
    | .ok ps => .ok (joinSep " AND ".data ps.1, ps.2)
  | .conjAnd .nil => .ok (sqlTrue.data, [])
  | .conjOr .nil => .ok (sqlFalse.data, [])
  | .conjAnd (.cons f fs) =>
    match renderFragList (.cons f fs) with
    | .error e => .error e
    | .ok ps =>
      let c := collectParts ps
      if c.1 = [] then .ok ([], c.2)
      else .ok ('(' :: (joinSep " AND ".data c.1 ++ [')']), c.2)
  | .conjOr (.cons f fs) =>
    match renderFragList (.cons f fs) with
    | .error e => .error e
    | .ok ps =>
      let c := collectParts ps
      if c.1 = [] then .ok ([], c.2)
      else .ok ('(' :: (joinSep " OR ".data c.1 ++ [')']), c.2)
  | .negate c =>
    match render c with
    | .error e => .error e
    | .ok r => .ok ("NOT ".data ++ r.1, r.2)
  | .raw tpl args => expandChars tpl.data args
  | .cas _ .nil _ => .error "case expression must contain at lease one WHEN clause"
  | .cas subj (.cons c r rest) els =>
    match renderSubj subj, renderWhens (.cons c r rest), renderElse els with
    | .error e, _, _ => .error e
    | _, .error e, _ => .error e
    | _, _, .error e => .error e
    | .ok sp, .ok wp, .ok ep =>
      .ok ("CASE ".data ++ sp.1 ++ wp.1 ++ ep.1 ++ "END".data, sp.2 ++ wp.2 ++ ep.2)

/-- Renders each child Fragment of a conjunction in order, failing on the
first child failure. -/
def renderFragList : FragList → Except String (List (List Char × List Val))
  | .nil => .ok []
  | .cons f fs =>
    match render f, renderFragList fs with
    | .error e, _ => .error e
    | _, .error e => .error e
    | .ok r, .ok rs => .ok (r :: rs)

/-- Renders the WHEN/THEN pairs of a CASE expression in order. -/
def renderWhens : WhenList → Except String (List Char × List Val)
  | .nil => .ok ([], [])
  | .cons c r rest =>
    match renderSlot c, renderSlot r, renderWhens rest with
    | .error e, _, _ => .error e
    | _, .error e, _ => .error e
    | _, _, .error e => .error e
    | .ok cp, .ok rp, .ok tp =>
      .ok ("WHEN ".data ++ cp.1 ++ " THEN ".data ++ rp.1 ++ ' ' :: tp.1, cp.2 ++ rp.2 ++ tp.2)

/-- Modelled from the spec: per-slot dispatch of a CASE condition/result
(spec section 4.5): a textual value is emitted verbatim with no argument, any
other scalar becomes one marker with the scalar bound, and a nested Fragment
renders recursively. -/
def renderSlot : CaseSlot → Except String (List Char × List Val)
  | .absent => .ok ([], [])
  | .txt s => .ok (s.data, [])
  | .val v => .ok (['?'], [v])
  | .frag f => render f

/-- Renders an optional CASE subject (text followed by a space when present,
following the same slot dispatch). -/
def renderSubj : CaseSlot → Except String (List Char × List Val)
  | .absent => .ok ([], [])
  | .txt s => .ok (s.data ++ [' '], [])
  | .val v => .ok ("? ".data, [v])
  | .frag f =>
    match render f with
    | .error e => .error e
    | .ok r => .ok (r.1 ++ [' '], r.2)

/-- Renders an optional ELSE default of a CASE expression. -/
def renderElse : CaseSlot → Except String (List Char × List Val)
  | .absent => .ok ([], [])
  | .txt s => .ok ("ELSE ".data ++ s.data ++ [' '], [])
  | .val v => .ok ("ELSE ? ".data, [v])
  | .frag f =>
    match render f with
    | .error e => .error e
    | .ok r => .ok ("ELSE ".data ++ r.1 ++ [' '], r.2)

end

/-- The number of positional markers appearing in a rendered text. -/
def countMarkers (t : List Char) : Nat := t.count '?'

mutual

/-- A Fragment is clean when no verbatim-emitted text carries the marker
character: predicate field names and textual CASE slots contain no marker.
Raw-expression templates need no such condition because their marker and
argument counts are checked during render. -/
def cleanFrag : Fragment → Bool
  | .pred _ pairs => pairs.all fun p => p.1.data.count '?' == 0
  | .conjAnd cs => cleanList cs
  | .conjOr cs => cleanList cs
  | .negate c => cleanFrag c
  | .raw _ _ => true
  | .cas subj whens els => cleanSlot subj && cleanWhens whens && cleanSlot els

/-- Cleanliness of every child of a conjunction. -/
def cleanList : FragList → Bool
  | .nil => true
  | .cons f fs => cleanFrag f && cleanList fs

/-- Cleanliness of every WHEN/THEN pair of a CASE expression. -/
def cleanWhens : WhenList → Bool
  | .nil => true
  | .cons c r rest => cleanSlot c && cleanSlot r && cleanWhens rest

/-- Cleanliness of one CASE slot: a textual slot must not contain the
marker character. -/
def cleanSlot : CaseSlot → Bool
  | .absent => true
  | .txt s => s.data.count '?' == 0
  | .val _ => true
  | .frag f => cleanFrag f

end

theorem countMarkers_append (a b : List Char) :
    countMarkers (a ++ b) = countMarkers a + countMarkers b :=
  List.count_append ..

theorem countMarkers_opStr (op : Comp) : countMarkers (opStr op).data = 0 := by
  cases op <;> rfl

theorem countMarkers_placeholdersFor (n : Nat) :
    countMarkers (placeholdersFor n) = n := by
  induction n with
  | zero => rfl
  | succ n ih =>
    by_cases h : n = 0
    · subst h; rfl
    · simp only [placeholdersFor, h, if_false, countMarkers, List.count_cons] at ih ⊢
      simp_all

theorem countMarkers_joinSep (sep : List Char) (hs : countMarkers sep = 0)
    (ts : List (List Char)) :
    countMarkers (joinSep sep ts) = (ts.map countMarkers).sum := by
  induction ts with
  | nil => rfl
  | cons t ts ih =>
    cases ts with
    | nil => simp [joinSep]
    | cons t2 ts2 =>
      simp only [joinSep] at ih ⊢
      simp only [countMarkers_append, hs, List.map_cons, List.sum_cons] at ih ⊢
      omega

theorem collectParts_counts (ps : List (List Char × List Val))
    (h : ∀ p ∈ ps, countMarkers p.1 = p.2.length) :
    ((collectParts ps).1.map countMarkers).sum = (collectParts ps).2.length := by
  induction ps with
  | nil => rfl
  | cons p ps ih =>
    have hp := h p (by simp)
    have hr := ih fun q hq => h q (by simp [hq])
    obtain ⟨t, a⟩ := p
    simp only [collectParts]
    by_cases ht : t = []
    · simp [ht, hr]
    · simp only [ht, if_false, List.map_cons, List.sum_cons, List.length_append, hr]
      simp_all

theorem collectParts_nil_args (ps : List (List Char × List Val))
    (h : (collectParts ps).1 = []) : (collectParts ps).2 = [] := by
  induction ps with
  | nil => rfl
  | cons p ps ih =>
    obtain ⟨t, a⟩ := p
    simp only [collectParts] at h ⊢
    by_cases ht : t = []
    · simp only [ht, if_true] at h ⊢
      exact ih h
    · simp [ht] at h

theorem expandChars_counts (tpl : List Char) (args : List Arg)
    (t : List Char) (a : List Val)
    (h : expandChars tpl args = .ok (t, a)) :
    countMarkers t = a.length := by
  induction tpl, args using expandChars.induct generalizing t a with
  | case1 args hargs =>
    simp [expandChars, hargs] at h
    obtain ⟨rfl, rfl⟩ := h
    rfl
  | case2 args hargs => simp [expandChars, hargs] at h
  | case3 cs => simp [expandChars] at h
  | case4 cs v rest e herr ih => simp [expandChars, herr] at h
  | case5 cs v rest r hok ih =>
    simp [expandChars, hok] at h
    obtain ⟨rfl, rfl⟩ := h
    have := ih r.1 r.2 hok
    simp [countMarkers, List.count_cons] at this ⊢
    omega
  | case6 cs tail => simp [expandChars] at h
  | case7 cs v vs rest e herr ih => simp [expandChars, herr] at h
  | case8 cs v vs rest r hok ih =>
    simp [expandChars, hok] at h
    obtain ⟨rfl, rfl⟩ := h
    have hrec := ih r.1 r.2 hok
    have hph := countMarkers_placeholdersFor (v :: vs).length
    simp only [countMarkers, List.count_cons, List.count_append] at hrec hph ⊢
    simp_all
    omega
  | case9 c cs args hne e herr ih => simp [expandChars, hne, herr] at h
  | case10 c cs args hne r hok ih =>
    simp [expandChars, hne, hok] at h
    obtain ⟨rfl, rfl⟩ := h
    have := ih r.1 r.2 hok
    simp only [countMarkers, List.count_cons] at this ⊢
    simp [hne, this]

/-- The in-order flattening of raw-expression arguments: a scalar
contributes itself, a collection contributes its elements in order. -/
def flattenArgs : List Arg → List Val
  | [] => []
  | .scalar v :: rest => v :: flattenArgs rest
  | .coll vs :: rest => vs ++ flattenArgs rest

theorem expandChars_flatten (tpl : List Char) (args : List Arg)
    (t : List Char) (a : List Val)
    (h : expandChars tpl args = .ok (t, a)) :
    a = flattenArgs args := by
  induction tpl, args using expandChars.induct generalizing t a with
  | case1 args hargs =>
    have : args = [] := by simpa [List.isEmpty_iff] using hargs
    subst this
    simp [expandChars] at h
    simp [flattenArgs, ← h.2]
  | case2 args hargs => simp [expandChars, hargs] at h
  | case3 cs => simp [expandChars] at h
  | case4 cs v rest e herr ih => simp [expandChars, herr] at h
  | case5 cs v rest r hok ih =>
    simp [expandChars, hok] at h
    obtain ⟨rfl, rfl⟩ := h
    simp [flattenArgs, ih r.1 r.2 hok]
  | case6 cs tail => simp [expandChars] at h
  | case7 cs v vs rest e herr ih => simp [expandChars, herr] at h
  | case8 cs v vs rest r hok ih =>
    simp [expandChars, hok] at h
    obtain ⟨rfl, rfl⟩ := h
    simp [flattenArgs, ih r.1 r.2 hok]
  | case9 c cs args hne e herr ih => simp [expandChars, hne, herr] at h
  | case10 c cs args hne r hok ih =>
    simp [expandChars, hne, hok] at h
    obtain ⟨rfl, rfl⟩ := h
    exact ih r.1 r.2 hok

theorem expandChars_error_of_empty_coll (tpl : List Char) (args : List Arg)
    (h : Arg.coll [] ∈ args) : ∃ e, expandChars tpl args = .error e := by
  induction tpl, args using expandChars.induct with
  | case1 args hargs =>
    have : args = [] := by simpa [List.isEmpty_iff] using hargs
    subst this
    simp at h
  | case2 args hargs =>
    exact ⟨"expr marker and argument counts differ", by simp [expandChars, hargs]⟩
  | case3 cs => exact ⟨"expr marker and argument counts differ", by simp [expandChars]⟩
  | case4 cs v rest e herr ih => exact ⟨e, by simp [expandChars, herr]⟩
  | case5 cs v rest r hok ih =>
    have hm : Arg.coll [] ∈ rest := by
      rcases List.mem_cons.mp h with h1 | h1
      · exact absurd h1 (by simp)
      · exact h1
    obtain ⟨e, he⟩ := ih hm
    rw [hok] at he
    exact absurd he (by simp)
  | case6 cs tail => exact ⟨"empty slice passed to Expr placeholder", by simp [expandChars]⟩
  | case7 cs v vs rest e herr ih => exact ⟨e, by simp [expandChars, herr]⟩
  | case8 cs v vs rest r hok ih =>
    have hm : Arg.coll [] ∈ rest := by
      rcases List.mem_cons.mp h with h1 | h1
      · exact absurd h1 (by simp)
      · exact h1
    obtain ⟨e, he⟩ := ih hm
    rw [hok] at he
    exact absurd he (by simp)
  | case9 c cs args hne e herr ih => exact ⟨e, by simp [expandChars, hne, herr]⟩
  | case10 c cs args hne r hok ih =>
    obtain ⟨e, he⟩ := ih h
    rw [hok] at he
    exact absurd he (by simp)

theorem renderPair_counts (op : Comp) (field : String) (v : PredVal)
    (t : List Char) (a : List Val) (hf : field.data.count '?' = 0)
    (h : renderPair op field v = .ok (t, a)) :
    countMarkers t = a.length := by
  have hop := countMarkers_opStr op
  cases v with
  | null =>
    cases op <;> simp [renderPair] at h <;>
      (obtain ⟨rfl, rfl⟩ := h;
       simp [countMarkers, List.count_append, hf])
  | scalar w =>
    cases op <;> simp [renderPair] at h <;>
      (obtain ⟨rfl, rfl⟩ := h;
       simp only [countMarkers, List.count_append, List.count_cons, hf] at hop ⊢;
       simp [hop])
  | coll vs =>
    cases vs with
    | nil =>
      cases op <;> simp [renderPair] at h <;>
        (obtain ⟨rfl, rfl⟩ := h; decide)
    | cons w ws =>
      have hph := countMarkers_placeholdersFor (ws.length + 1)
      have hin : List.count '?' " IN (".data = 0 := by decide
      have hnotin : List.count '?' " NOT IN (".data = 0 := by decide
      simp only [countMarkers] at hph
      cases op <;> simp [renderPair] at h
      all_goals obtain ⟨rfl, rfl⟩ := h
      all_goals
        simp [countMarkers, List.count_append, List.count_cons, List.length_cons,
          hf, hph, hin, hnotin]

theorem renderPairs_counts (op : Comp) (pairs : List (String × PredVal))
    (ts : List (List Char)) (a : List Val)
    (hc : (pairs.all fun p => p.1.data.count '?' == 0) = true)
    (h : renderPairs op pairs = .ok (ts, a)) :
    (ts.map countMarkers).sum = a.length := by
  induction pairs generalizing ts a with
  | nil =>
    simp [renderPairs] at h
    obtain ⟨rfl, rfl⟩ := h
    rfl
  | cons p rest ih =>
    obtain ⟨f, v⟩ := p
    simp only [List.all_cons, Bool.and_eq_true, beq_iff_eq] at hc
    cases hp : renderPair op f v with
    | error e => simp [renderPairs, hp] at h
    | ok r =>
      cases hr : renderPairs op rest with
      | error e => simp [renderPairs, hp, hr] at h
      | ok rs =>
        simp [renderPairs, hp, hr] at h
        obtain ⟨rfl, rfl⟩ := h
        have h1 := renderPair_counts op f v r.1 r.2 hc.1 (by rw [hp])
        have h2 := ih rs.1 rs.2 (by simpa using hc.2) (by rw [hr])
        simp [h1, h2]

mutual

theorem markersFrag : ∀ (f : Fragment) (t : List Char) (a : List Val),
    cleanFrag f = true → render f = .ok (t, a) → countMarkers t = a.length
  | .pred op pairs, t, a, hc, hr => by
    simp only [cleanFrag] at hc
    cases hps : renderPairs op pairs with
    | error e => simp [render, hps] at hr
    | ok ps =>
      simp [render, hps] at hr
      obtain ⟨rfl, rfl⟩ := hr
      have hsum := renderPairs_counts op pairs ps.1 ps.2 hc (by rw [hps])
      have hj := countMarkers_joinSep " AND ".data (by decide) ps.1
      simp [hj, hsum]
  | .conjAnd .nil, t, a, _, hr => by
    simp [render] at hr
    obtain ⟨rfl, rfl⟩ := hr
    decide
  | .conjOr .nil, t, a, _, hr => by
    simp [render] at hr
    obtain ⟨rfl, rfl⟩ := hr
    decide
  | .conjAnd (.cons f fs), t, a, hc, hr => by
    simp only [cleanFrag] at hc
    cases hps : renderFragList (.cons f fs) with
    | error e => simp [render, hps] at hr
    | ok ps =>
      have hall := markersList (.cons f fs) ps hc (by rw [hps])
      simp only [render, hps] at hr
      by_cases he : (collectParts ps).1 = []
      · simp [he] at hr
        obtain ⟨rfl, rfl⟩ := hr
        have := collectParts_nil_args ps he
        simp [countMarkers, this]
      · simp [he] at hr
        obtain ⟨rfl, rfl⟩ := hr
        have hcc := collectParts_counts ps hall
        have hj := countMarkers_joinSep " AND ".data (by decide) (collectParts ps).1
        simp [countMarkers, List.count_cons, List.count_append] at hj hcc ⊢
        omega
  | .conjOr (.cons f fs), t, a, hc, hr => by
    simp only [cleanFrag] at hc
    cases hps : renderFragList (.cons f fs) with
    | error e => simp [render, hps] at hr
    | ok ps =>
      have hall := markersList (.cons f fs) ps hc (by rw [hps])
      simp only [render, hps] at hr
      by_cases he : (collectParts ps).1 = []
      · simp [he] at hr
        obtain ⟨rfl, rfl⟩ := hr
        have := collectParts_nil_args ps he
        simp [countMarkers, this]
      · simp [he] at hr
        obtain ⟨rfl, rfl⟩ := hr
        have hcc := collectParts_counts ps hall
        have hj := countMarkers_joinSep " OR ".data (by decide) (collectParts ps).1
        simp [countMarkers, List.count_cons, List.count_append] at hj hcc ⊢
        omega
  | .negate c, t, a, hc, hr => by
    simp only [cleanFrag] at hc
    cases h1 : render c with
    | error e => simp [render, h1] at hr
    | ok r =>
      simp [render, h1] at hr
      obtain ⟨rfl, rfl⟩ := hr
      have hm := markersFrag c r.1 r.2 hc (by rw [h1])
      simp only [countMarkers] at hm ⊢
      simp [List.count_cons, List.count_append, hm]
  | .raw tpl args, t, a, _, hr => expandChars_counts tpl.data args t a hr
  | .cas subj .nil els, t, a, _, hr => by simp [render] at hr
  | .cas subj (.cons c r rest) els, t, a, hc, hr => by
    simp only [cleanFrag, Bool.and_eq_true] at hc
    obtain ⟨⟨hc1, hc2⟩, hc3⟩ := hc
    cases h1 : renderSubj subj with
    | error e => simp [render, h1] at hr
    | ok sp =>
      cases h2 : renderWhens (.cons c r rest) with
      | error e => simp [render, h1, h2] at hr
      | ok wp =>
        cases h3 : renderElse els with
        | error e => simp [render, h1, h2, h3] at hr
        | ok ep =>
          simp [render, h1, h2, h3] at hr
          obtain ⟨rfl, rfl⟩ := hr
          have m1 := markersSubj subj sp.1 sp.2 hc1 (by rw [h1])
          have m2 := markersWhens (.cons c r rest) wp.1 wp.2 hc2 (by rw [h2])
          have m3 := markersElse els ep.1 ep.2 hc3 (by rw [h3])
          simp only [countMarkers] at m1 m2 m3 ⊢
          simp [List.count_cons, List.count_append, List.length_append, m1, m2, m3]

theorem markersList : ∀ (fs : FragList) (ps : List (List Char × List Val)),
    cleanList fs = true → renderFragList fs = .ok ps →
    ∀ p ∈ ps, countMarkers p.1 = p.2.length
  | .nil, ps, _, hr => by
    simp [renderFragList] at hr
    subst hr
    simp
  | .cons f fs, ps, hc, hr => by
    simp only [cleanList, Bool.and_eq_true] at hc
    cases h1 : render f with
    | error e => simp [renderFragList, h1] at hr
    | ok r =>
      cases h2 : renderFragList fs with
      | error e => simp [renderFragList, h1, h2] at hr
      | ok rs =>
        simp [renderFragList, h1, h2] at hr
        subst hr
        intro p hp
        rcases List.mem_cons.mp hp with rfl | hp2
        · exact markersFrag f p.1 p.2 hc.1 (by rw [h1])
        · exact markersList fs rs hc.2 (by rw [h2]) p hp2

theorem markersWhens : ∀ (w : WhenList) (t : List Char) (a : List Val),
    cleanWhens w = true → renderWhens w = .ok (t, a) → countMarkers t = a.length
  | .nil, t, a, _, hr => by
    simp [renderWhens] at hr
    obtain ⟨rfl, rfl⟩ := hr
    rfl
  | .cons c r rest, t, a, hc, hr => by
    simp only [cleanWhens, Bool.and_eq_true] at hc
    obtain ⟨⟨hc1, hc2⟩, hc3⟩ := hc
    cases h1 : renderSlot c with
    | error e => simp [renderWhens, h1] at hr
    | ok cp =>
      cases h2 : renderSlot r with
      | error e => simp [renderWhens, h1, h2] at hr
      | ok rp =>
        cases h3 : renderWhens rest with
        | error e => simp [renderWhens, h1, h2, h3] at hr
        | ok tp =>
          simp [renderWhens, h1, h2, h3] at hr
          obtain ⟨rfl, rfl⟩ := hr
          have m1 := markersSlot c cp.1 cp.2 hc1 (by rw [h1])
          have m2 := markersSlot r rp.1 rp.2 hc2 (by rw [h2])
          have m3 := markersWhens rest tp.1 tp.2 hc3 (by rw [h3])
          simp only [countMarkers] at m1 m2 m3 ⊢
          simp [List.count_cons, List.count_append, List.length_append, m1, m2, m3]

theorem markersSlot : ∀ (s : CaseSlot) (t : List Char) (a : List Val),
    cleanSlot s = true → renderSlot s = .ok (t, a) → countMarkers t = a.length
  | .absent, t, a, _, hr => by
    simp [renderSlot] at hr
    obtain ⟨rfl, rfl⟩ := hr
    rfl
  | .txt s, t, a, hc, hr => by
    simp [renderSlot] at hr
    obtain ⟨rfl, rfl⟩ := hr
    simp only [cleanSlot, beq_iff_eq] at hc
    simpa [countMarkers] using hc
  | .val v, t, a, _, hr => by
    simp [renderSlot] at hr
    obtain ⟨rfl, rfl⟩ := hr
    rfl
  | .frag f, t, a, hc, hr =>
    markersFrag f t a (by simpa [cleanSlot] using hc) hr

theorem markersSubj : ∀ (s : CaseSlot) (t : List Char) (a : List Val),
    cleanSlot s = true → renderSubj s = .ok (t, a) → countMarkers t = a.length
  | .absent, t, a, _, hr => by
    simp [renderSubj] at hr
    obtain ⟨rfl, rfl⟩ := hr
    rfl
  | .txt s, t, a, hc, hr => by
    simp [renderSubj] at hr
    obtain ⟨rfl, rfl⟩ := hr
    simp only [cleanSlot, beq_iff_eq] at hc
    simpa [countMarkers, List.count_append, List.count_cons] using hc
  | .val v, t, a, _, hr => by
    simp [renderSubj] at hr
    obtain ⟨rfl, rfl⟩ := hr
    rfl
  | .frag f, t, a, hc, hr => by
    cases h1 : render f with
    | error e => simp [renderSubj, h1] at hr
    | ok r =>
      simp [renderSubj, h1] at hr
      obtain ⟨rfl, rfl⟩ := hr
      have hm := markersFrag f r.1 r.2 (by simpa [cleanSlot] using hc) (by rw [h1])
      simp only [countMarkers, List.count_append, List.count_cons] at hm ⊢
      simp_all

theorem markersElse : ∀ (s : CaseSlot) (t : List Char) (a : List Val),
    cleanSlot s = true → renderElse s = .ok (t, a) → countMarkers t = a.length
  | .absent, t, a, _, hr => by
    simp [renderElse] at hr
    obtain ⟨rfl, rfl⟩ := hr
    rfl
  | .txt s, t, a, hc, hr => by
    simp [renderElse] at hr
    obtain ⟨rfl, rfl⟩ := hr
    simp only [cleanSlot, beq_iff_eq] at hc
    have he : countMarkers "ELSE ".data = 0 := by decide
    simp only [countMarkers, List.count_append, List.count_cons] at he ⊢
    simp_all [hc]
  | .val v, t, a, _, hr => by
    simp [renderElse] at hr
    obtain ⟨rfl, rfl⟩ := hr
    rfl
  | .frag f, t, a, hc, hr => by
    cases h1 : render f with
    | error e => simp [renderElse, h1] at hr
    | ok r =>
      simp [renderElse, h1] at hr
      obtain ⟨rfl, rfl⟩ := hr
      have hm := markersFrag f r.1 r.2 (by simpa [cleanSlot] using hc) (by rw [h1])
      have he : countMarkers "ELSE ".data = 0 := by decide
      simp only [countMarkers, List.count_append, List.count_cons] at hm he ⊢
      simp_all

end

/-- The output placeholder formats exercised by the repository tests:
Question (pass-through) and Dollar (sequential numbered). -/
inductive PlaceholderFormat where
  | question
  | dollar
deriving DecidableEq, Repr

/-- Modelled from the spec: the Dollar rewrite (spec section 4.6; the
repository does not ship placeholder.go, but the builder tests pin the
Question and Dollar outputs).  A single left-to-right scan replacing the
k-th marker with the dollar token for k; no SQL parsing, no quote
awareness. -/
def dollarize : List Char → Nat → List Char
  | [], _ => []
  | c :: cs, k =>
    if c = '?' then '$' :: (Nat.repr k).data ++ dollarize cs (k + 1)
    else c :: dollarize cs k

/-- Applies a placeholder format to a composed statement string: Question is
the identity, Dollar numbers markers from 1. -/
def replacePlaceholders : PlaceholderFormat → String → String
  | .question, s => s
  | .dollar, s => String.mk (dollarize s.data 1)

/-- A composed text viewed as marker-free segments with exactly one marker
between consecutive segments. -/
def markerJoin : List (List Char) → List Char
  | [] => []
  | [s] => s
  | s :: rest => s ++ '?' :: markerJoin rest

/-- Modelled from the spec: the expected output of the sequential numbered
format, stated from the spec words: each marker replaced left to right with
an incrementing index token, all other text unchanged. -/
def numberedJoin : List (List Char) → Nat → List Char
  | [], _ => []
  | [s], _ => s
  | s :: rest, k => s ++ '$' :: (Nat.repr k).data ++ numberedJoin rest (k + 1)

theorem dollarize_no_marker (s : List Char) (k : Nat) (h : '?' ∉ s) :
    dollarize s k = s := by
  induction s with
  | nil => rfl
  | cons c cs ih =>
    rw [List.mem_cons, not_or] at h
    have hc : ¬c = '?' := fun hcc => h.1 hcc.symm
    simp [dollarize, hc, ih h.2]

theorem dollarize_append (s t : List Char) (k : Nat) (h : '?' ∉ s) :
    dollarize (s ++ t) k = s ++ dollarize t k := by
  induction s with
  | nil => rfl
  | cons c cs ih =>
    rw [List.mem_cons, not_or] at h
    have hc : ¬c = '?' := fun hcc => h.1 hcc.symm
    simp [dollarize, hc, ih h.2]

theorem dollarize_markerJoin (ss : List (List Char)) (k : Nat)
    (h : ∀ s ∈ ss, '?' ∉ s) :
    dollarize (markerJoin ss) k = numberedJoin ss k := by
  induction ss generalizing k with
  | nil => rfl
  | cons s rest ih =>
    cases rest with
    | nil =>
      simp only [markerJoin, numberedJoin]
      exact dollarize_no_marker s k (h s (by simp))
    | cons s2 rest2 =>
      have hs : '?' ∉ s := h s (by simp)
      simp only [markerJoin, numberedJoin]
      rw [dollarize_append s _ k hs]
      simp only [dollarize, if_pos rfl]
      rw [ih (k + 1) fun x hx => h x (by simp [hx])]
      simp

/-- Concatenates two fallible rendered pieces, keeping the first error. -/
def seqAppend (x y : Except String (List Char × List Val)) :
    Except String (List Char × List Val) :=
  match x, y with
  | .error e, _ => .error e
  | _, .error e => .error e
  | .ok a, .ok b => .ok (a.1 ++ b.1, a.2 ++ b.2)

/-- A fixed text piece carrying no arguments. -/
def litPiece (s : String) : Except String (List Char × List Val) :=
  .ok (s.data, [])

/-- Concatenates a list of fallible pieces in order, keeping the first
error. -/
def piecesConcat : List (Except String (List Char × List Val)) →
    Except String (List Char × List Val)
  | [] => .ok ([], [])
  | p :: rest => seqAppend p (piecesConcat rest)

/-- Modelled from the spec: the clause-level Composer (spec section 4.1; the
Go helper appendToSql called by src/select.go is not among the shipped
sources).  Renders each part in order, fails on the first failure, skips
parts whose rendered text is empty, and writes the separator between
non-empty renderings only. -/
def appendParts : List Fragment → String → Except String (List Char × List Val)
  | [], _ => .ok ([], [])
  | p :: rest, sep =>
    match render p, appendParts rest sep with
    | .error e, _ => .error e
    | _, .error e => .error e
    | .ok r, .ok rs =>
      if r.1 = [] then .ok rs
      else if rs.1 = [] then .ok (r.1, r.2 ++ rs.2)
      else .ok (r.1 ++ sep.data ++ rs.1, r.2 ++ rs.2)

/-- The selectData fields of src/select.go (the runner fields are omitted:
they touch only the out-of-scope execution layer). -/
structure SelectData where
  placeholder : PlaceholderFormat
  prefixes : List Fragment
  ctes : List Fragment
  options : List String
  columns : List Fragment
  fromPart : Option Fragment
  joins : List Fragment
  whereParts : List Fragment
  groupBys : List String
  havingParts : List Fragment
  compounds : List Fragment
  orderByParts : List Fragment
  limit : String
  offset : String
  suffixes : List Fragment

/-- Faithful translation of selectData.toSqlRaw from src/select.go: each
clause is appended in source order.  Note that the WHERE keyword is written
whenever WhereParts is non-empty; src/select.go has no special case for the
empty-conjunction literals. -/
def selToSqlRaw (d : SelectData) : Except String (List Char × List Val) :=
  if d.columns.isEmpty then
    .error "select statements must have at least one result column"
  else
    piecesConcat [
      (if d.prefixes.isEmpty then litPiece ""
       else seqAppend (appendParts d.prefixes " ") (litPiece " ")),
      (if d.ctes.isEmpty then litPiece ""
       else seqAppend (litPiece "WITH ")
         (seqAppend (appendParts d.ctes ", ") (litPiece " "))),
      litPiece "SELECT ",
      (if d.options = [] then litPiece ""
       else litPiece (String.intercalate " " d.options ++ " ")),
      appendParts d.columns ", ",
      (match d.fromPart with
       | none => litPiece ""
       | some f => seqAppend (litPiece " FROM ") (appendParts [f] "")),
      (if d.joins.isEmpty then litPiece ""
       else seqAppend (litPiece " ") (appendParts d.joins " ")),
      (if d.whereParts.isEmpty then litPiece ""
       else seqAppend (litPiece " WHERE ") (appendParts d.whereParts " AND ")),
      (if d.groupBys = [] then litPiece ""
       else litPiece (" GROUP BY " ++ String.intercalate ", " d.groupBys)),
      (if d.havingParts.isEmpty then litPiece ""
       else seqAppend (litPiece " HAVING ") (appendParts d.havingParts " AND ")),
      (if d.compounds.isEmpty then litPiece ""
       else seqAppend (litPiece " ") (appendParts d.compounds " ")),
      (if d.orderByParts.isEmpty then litPiece ""
       else seqAppend (litPiece " ORDER BY ") (appendParts d.orderByParts ", ")),
      (if d.limit = "" then litPiece "" else litPiece (" LIMIT " ++ d.limit)),
      (if d.offset = "" then litPiece "" else litPiece (" OFFSET " ++ d.offset)),
      (if d.suffixes.isEmpty then litPiece ""
       else seqAppend (litPiece " ") (appendParts d.suffixes " "))]

/-- Faithful translation of selectData.ToSql from src/select.go: render raw
then apply the placeholder format to the statement string only. -/
def selToSql (d : SelectData) : Except String (String × List Val) :=
  match selToSqlRaw d with
  | .error e => .error e
  | .ok r => .ok (replacePlaceholders d.placeholder (String.mk r.1), r.2)

/-- The predicate argument forms accepted by SelectBuilder.Where in
src/select.go: Go nil, a string (an SQL expression with optional marker
arguments), or a Fragment value. -/
inductive WherePred where
  | nilP
  | strP (s : String)
  | fragP (f : Fragment)

/-- Replaces the WhereParts field of a SelectData. -/
def withWhereParts (d : SelectData) (w : List Fragment) : SelectData :=
  ⟨d.placeholder, d.prefixes, d.ctes, d.options, d.columns, d.fromPart,
   d.joins, w, d.groupBys, d.havingParts, d.compounds, d.orderByParts,
   d.limit, d.offset, d.suffixes⟩

/-- Faithful translation of SelectBuilder.Where from src/select.go: a nil or
empty-string predicate is ignored (the builder is returned unchanged);
otherwise a where part is appended.  The trailing argument list is only
consulted for string predicates, as in newWherePart. -/
def selectWhere (d : SelectData) (pred : WherePred) (args : List Arg) : SelectData :=
  match pred with
  | .nilP => d
  | .strP "" => d
  | .strP s => withWhereParts d (d.whereParts ++ [.raw s args])
  | .fragP f => withWhereParts d (d.whereParts ++ [f])

/-- The deleteData fields, following the shape exercised by delete_test.go
(delete.go is not among the shipped sources). -/
structure DeleteData where
  placeholder : PlaceholderFormat
  prefixes : List Fragment
  table : String
  joins : List Fragment
  whereParts : List Fragment
  orderBys : List String
  limit : String
  offset : String
  suffixes : List Fragment

/-- Modelled from the spec: the WHERE-clause consumer of the DELETE builder
(spec section 4.3; delete.go is not shipped).  When the rendered where text
is exactly the always-true or always-false empty-conjunction literal, or
empty, the clause is omitted entirely and contributes zero arguments, as
pinned by TestDeleteBuilderNilOrClause and TestDeleteBuilderEmptyAndClause. -/
def delWherePiece : List Fragment → Except String (List Char × List Val)
  | [] => .ok ([], [])
  | ps =>
    match appendParts ps " AND " with
    | .error e => .error e
    | .ok r =>
      if r.1 = sqlTrue.data ∨ r.1 = sqlFalse.data ∨ r.1 = [] then .ok ([], [])
      else .ok (" WHERE ".data ++ r.1, r.2)

/-- Modelled from the spec: DELETE statement assembly (delete.go is not
shipped; clause order pinned by TestDeleteBuilderToSql). -/
def delToSqlRaw (d : DeleteData) : Except String (List Char × List Val) :=
  if d.table = "" then .error "delete statements must specify a table"
  else
    piecesConcat [
      (if d.prefixes.isEmpty then litPiece ""
       else seqAppend (appendParts d.prefixes " ") (litPiece " ")),
      litPiece "DELETE FROM ",
      litPiece d.table,
      (if d.joins.isEmpty then litPiece ""
       else seqAppend (litPiece " ") (appendParts d.joins " ")),
      delWherePiece d.whereParts,
      (if d.orderBys = [] then litPiece ""
       else litPiece (" ORDER BY " ++ String.intercalate ", " d.orderBys)),
      (if d.limit = "" then litPiece "" else litPiece (" LIMIT " ++ d.limit)),
      (if d.offset = "" then litPiece "" else litPiece (" OFFSET " ++ d.offset)),
      (if d.suffixes.isEmpty then litPiece ""
       else seqAppend (litPiece " ") (appendParts d.suffixes " "))]

/-- DELETE ToSql: render raw then apply the placeholder format. -/
def delToSql (d : DeleteData) : Except String (String × List Val) :=
  match delToSqlRaw d with
  | .error e => .error e
  | .ok r => .ok (replacePlaceholders d.placeholder (String.mk r.1), r.2)

/-! Support definitions for the CASE mixed-type dispatch claim. -/

/-- The argument contributed by one simple CASE slot: a bound scalar
contributes itself; a textual or absent slot contributes nothing. -/
def slotVals : CaseSlot → List Val
  | .val v => [v]
  | _ => []

/-- The arguments contributed by the WHEN/THEN pairs, in appearance order. -/
def whenListVals : WhenList → List Val
  | .nil => []
  | .cons c r rest => slotVals c ++ slotVals r ++ whenListVals rest

/-- True when a slot holds no nested Fragment. -/
def simpleSlot : CaseSlot → Bool
  | .frag _ => false
  | _ => true

/-- True when every WHEN/THEN slot holds no nested Fragment. -/
def simpleWhens : WhenList → Bool
  | .nil => true
  | .cons c r rest => simpleSlot c && simpleSlot r && simpleWhens rest

/-- The text of one simple slot: textual values verbatim, bound scalars as a
single marker. -/
def slotText : CaseSlot → List Char
  | .txt s => s.data
  | .val _ => ['?']
  | _ => []

/-- The text of the WHEN/THEN pairs of a simple CASE expression. -/
def whenListText : WhenList → List Char
  | .nil => []
  | .cons c r rest =>
    "WHEN ".data ++ slotText c ++ " THEN ".data ++ slotText r ++ ' ' :: whenListText rest

/-- The subject piece of a simple CASE expression. -/
def subjText : CaseSlot → List Char
  | .absent => []
  | s => slotText s ++ [' ']

/-- The ELSE piece of a simple CASE expression. -/
def elseText : CaseSlot → List Char
  | .absent => []
  | s => "ELSE ".data ++ slotText s ++ [' ']

/-- The full text of a simple CASE expression. -/
def simpleCaseText (subj : CaseSlot) (whens : WhenList) (els : CaseSlot) : List Char :=
  "CASE ".data ++ subjText subj ++ whenListText whens ++ elseText els ++ "END".data

theorem renderSlot_simple (s : CaseSlot) (h : simpleSlot s = true) :
    renderSlot s = .ok (slotText s, slotVals s) := by
  cases s with
  | absent => rfl
  | txt s => rfl
  | val v => rfl
  | frag f => simp [simpleSlot] at h

theorem renderSubj_simple (s : CaseSlot) (h : simpleSlot s = true) :
    renderSubj s = .ok (subjText s, slotVals s) := by
  cases s with
  | absent => rfl
  | txt s => rfl
  | val v => rfl
  | frag f => simp [simpleSlot] at h

theorem renderElse_simple (s : CaseSlot) (h : simpleSlot s = true) :
    renderElse s = .ok (elseText s, slotVals s) := by
  cases s with
  | absent => rfl
  | txt s => rfl
  | val v => rfl
  | frag f => simp [simpleSlot] at h

theorem renderWhens_simple : ∀ (w : WhenList), simpleWhens w = true →
    renderWhens w = .ok (whenListText w, whenListVals w)
  | .nil, _ => rfl
  | .cons c r rest, h => by
    simp only [simpleWhens, Bool.and_eq_true] at h
    obtain ⟨⟨h1, h2⟩, h3⟩ := h
    rw [renderWhens, renderSlot_simple c h1, renderSlot_simple r h2,
      renderWhens_simple rest h3]
    simp [whenListText, whenListVals]

theorem caseSimpleRender (subj : CaseSlot) (whens : WhenList) (els : CaseSlot)
    (hs : simpleSlot subj = true) (hw : simpleWhens whens = true)
    (he : simpleSlot els = true) (hne : whens ≠ .nil) :
    render (.cas subj whens els) =
      .ok (simpleCaseText subj whens els,
        slotVals subj ++ whenListVals whens ++ slotVals els) := by
  cases whens with
  | nil => exact absurd rfl hne
  | cons c r rest =>
    rw [render, renderSubj_simple subj hs, renderWhens_simple _ hw,
      renderElse_simple els he]
    simp [simpleCaseText]

/-! Concrete fragments used by the claim statements below. -/

/-- The mixed-type CASE of TestCaseWithMixedTypes. -/
def mixedCase : Fragment :=
  .cas .absent
    (.cons (.frag (.pred .eq [("type", .scalar (.s "A"))])) (.val (.i 100))
      (.cons (.frag (.pred .eq [("type", .scalar (.s "B"))])) (.val (.f "200.5"))
        (.cons (.frag (.pred .eq [("type", .scalar (.s "C"))])) (.val (.b true)) .nil)))
    (.txt "default")

/-- The integer-valued CASE of TestCaseWithIntegerValues. -/
def intCase : Fragment :=
  .cas (.txt "order_no")
    (.cons (.txt "'ORD001'") (.val (.i 500))
      (.cons (.txt "'ORD002'") (.val (.i 600)) .nil))
    (.val (.i 0))

/-- A CASE whose textual condition slot contains the marker character. -/
def dirtyCase : Fragment :=
  .cas .absent (.cons (.txt "x = ?") (.val (.i 1)) .nil) .absent

/-- A composition of Predicate, Not, Or, raw expression and CASE. -/
def bigFrag : Fragment :=
  .conjAnd (.cons (.pred .eq [("id", .scalar (.i 5))])
    (.cons (.negate (.conjOr (.cons (.pred .eq [("deleted", .scalar (.b true))])
        (.cons (.pred .eq [("banned", .scalar (.b true))]) .nil))))
      (.cons (.raw "id NOT IN ?" [.coll [.i 1, .i 2]])
        (.cons (.cas .absent
            (.cons (.frag (.pred .eq [("status", .scalar (.s "a"))])) (.val (.i 1)) .nil)
            (.txt "0"))
          .nil))))

/-- The NOR fragment of Example_norOperation. -/
def norFrag : Fragment :=
  .conjOr (.cons (.pred .eq [("age", .scalar (.i 20))])
    (.cons (.pred .eq [("owner", .scalar (.s "admin"))]) .nil))

/-- The SELECT of Example_emptyOrBehavior: Select star From users
Where Or-empty. -/
def exSelEmptyOr : SelectData :=
  ⟨.question, [], [], [], [.raw "*" []], some (.raw "users" []), [],
   [.conjOr .nil], [], [], [], [], "", "", []⟩

/-- The DELETE of TestDeleteBuilderNilOrClause: Delete users Where nil Or. -/
def exDelOr : DeleteData :=
  ⟨.question, [], "users", [], [.conjOr .nil], [], "", "", []⟩

/-- The DELETE of TestDeleteBuilderEmptyAndClause: Delete users Where
empty And. -/
def exDelAnd : DeleteData :=
  ⟨.question, [], "users", [], [.conjAnd .nil], [], "", "", []⟩

/-- A DELETE from users with no filter at all. -/
def exDelNone : DeleteData :=
  ⟨.question, [], "users", [], [], [], "", "", []⟩

/-! The claims. -/

/-- C1 (amended): for every clean Fragment (no marker character inside
predicate field names or verbatim textual CASE slots) whose render succeeds,
the number of positional markers in the returned text equals the length of
the returned argument list; this holds for Predicates, Conjunctions, Not,
raw expressions, CASE expressions, and any composition of them. -/
theorem fragment_marker_invariant (f : Fragment) (t : List Char) (a : List Val)
    (hc : cleanFrag f = true) (hr : render f = .ok (t, a)) :
    countMarkers t = a.length :=
  markersFrag f t a hc hr

/-- C1 witness: the invariant evaluated on a composition of a Predicate, a
negated Or, a raw expression with slice expansion, and a CASE expression. -/
theorem fragment_marker_invariant_witness :
    countMarkers ("(id = ? AND NOT (deleted = ? OR banned = ?) AND id NOT IN (?,?) AND CASE WHEN status = ? THEN ? ELSE 0 END)").data =
      ([.i 5, .b true, .b true, .i 1, .i 2, .s "a", .i 1] : List Val).length :=
  fragment_marker_invariant bigFrag _ _ (by rfl) (by rfl)

/-- C1 counterexample: the invariant as stated in the claim fails without
the cleanliness condition: a CASE whose verbatim textual condition contains
the marker character renders successfully with two markers but one
argument. -/
theorem fragment_marker_invariant_counterexample :
    render dirtyCase = .ok ("CASE WHEN x = ? THEN ? END".data, [.i 1]) ∧
    countMarkers "CASE WHEN x = ? THEN ? END".data ≠ ([.i 1] : List Val).length :=
  ⟨rfl, by decide⟩

/-- C2: evaluating the builders at the inputs of the repository tests and
examples.  The spec-modelled DELETE builder omits the WHERE clause for a
sole empty Or or empty And filter, byte-identical to a DELETE with no
filter; but the SELECT builder of src/select.go writes the WHERE clause
unconditionally whenever WhereParts is non-empty, so the query of
Example_emptyOrBehavior renders with WHERE and the always-false literal,
contradicting that example. -/
theorem empty_filter_where_clause :
    selToSql exSelEmptyOr = .ok ("SELECT * FROM users WHERE (1=0)", []) ∧
    delToSql exDelOr = .ok ("DELETE FROM users", []) ∧
    delToSql exDelAnd = .ok ("DELETE FROM users", []) ∧
    delToSql exDelNone = .ok ("DELETE FROM users", []) :=
  ⟨rfl, rfl, rfl, rfl⟩

/-- C3: raw-expression slice expansion.  Every successful expansion returns
exactly the in-order flattening of the supplied arguments (collections
spliced in place, order preserved), and the literal scenarios of
Example_sliceInRawSQL and Example_mixedSliceAndRegularArgs hold. -/
theorem raw_slice_expansion :
    (∀ (tpl : List Char) (args : List Arg) (t : List Char) (a : List Val),
      expandChars tpl args = .ok (t, a) → a = flattenArgs args) ∧
    render (.raw "id NOT IN ?" [.coll [.i 1, .i 2, .i 3, .i 4, .i 5]]) =
      .ok ("id NOT IN (?,?,?,?,?)".data, [.i 1, .i 2, .i 3, .i 4, .i 5]) ∧
    render (.raw "category = ? AND id IN ? AND price > ?"
        [.scalar (.s "electronics"), .coll [.i 10, .i 20, .i 30], .scalar (.f "99.99")]) =
      .ok ("category = ? AND id IN (?,?,?) AND price > ?".data,
        [.s "electronics", .i 10, .i 20, .i 30, .f "99.99"]) :=
  ⟨expandChars_flatten, rfl, rfl⟩

/-- C3 witness: the order-preservation component evaluated at the mixed
scalar and collection argument list. -/
theorem raw_slice_expansion_witness :
    ([.s "electronics", .i 10, .i 20, .i 30, .f "99.99"] : List Val) =
      flattenArgs [.scalar (.s "electronics"), .coll [.i 10, .i 20, .i 30],
        .scalar (.f "99.99")] :=
  raw_slice_expansion.1 "category = ? AND id IN ? AND price > ?".data _ _ _ rfl

/-- C4: an equality Predicate over an empty collection renders the fixed
always-false literal with zero arguments; an inequality Predicate over an
empty collection renders the fixed always-true literal with zero
arguments. -/
theorem pred_empty_collection_defaults (field : String) :
    render (.pred .eq [(field, .coll [])]) = .ok (sqlFalse.data, []) ∧
    render (.pred .notEq [(field, .coll [])]) = .ok (sqlTrue.data, []) :=
  ⟨rfl, rfl⟩

/-- C5 (amended): rendering a CASE expression with zero WHEN/THEN pairs
fails, for every subject and ELSE default (so the failure happens at render
time, not while the builder is extended), with the error message as spelled
in the code and its test: the word lease, not least. -/
theorem case_no_when_render_error (subj els : CaseSlot) :
    render (.cas subj .nil els) =
      .error "case expression must contain at lease one WHEN clause" :=
  rfl

/-- C5 counterexample: the message the code actually produces differs from
the message quoted by the claim. -/
theorem case_no_when_message_counterexample :
    render (.cas (.txt "something") .nil (.txt "42")) =
      .error "case expression must contain at lease one WHEN clause" ∧
    "case expression must contain at lease one WHEN clause" ≠
      "case expression must contain at least one WHEN clause" :=
  ⟨rfl, by decide⟩

/-- C6: CASE slot dispatch.  For every CASE whose subject, WHEN/THEN and
ELSE slots hold only textual or scalar values, the render succeeds with the
textual slots emitted verbatim (zero arguments) and each non-textual scalar
slot replaced by one marker binding the scalar, arguments in slot appearance
order, the ELSE default included; and the mixed-type CASE of
TestCaseWithMixedTypes renders exactly as that test expects. -/
theorem case_mixed_dispatch :
    (∀ (subj : CaseSlot) (whens : WhenList) (els : CaseSlot),
      simpleSlot subj = true → simpleWhens whens = true →
      simpleSlot els = true → whens ≠ .nil →
      render (.cas subj whens els) =
        .ok (simpleCaseText subj whens els,
          slotVals subj ++ whenListVals whens ++ slotVals els)) ∧
    render mixedCase =
      .ok ("CASE WHEN type = ? THEN ? WHEN type = ? THEN ? WHEN type = ? THEN ? ELSE default END".data,
        [.s "A", .i 100, .s "B", .f "200.5", .s "C", .b true]) :=
  ⟨caseSimpleRender, rfl⟩

/-- C6 witness: the dispatch component evaluated at the integer-valued CASE
of TestCaseWithIntegerValues. -/
theorem case_mixed_dispatch_witness :
    render intCase =
      .ok ("CASE order_no WHEN 'ORD001' THEN ? WHEN 'ORD002' THEN ? ELSE ? END".data,
        [.i 500, .i 600, .i 0]) :=
  case_mixed_dispatch.1 (.txt "order_no") _ (.val (.i 0)) rfl rfl rfl
    (fun h => nomatch h)

/-- C7 (amended): supplying an empty collection among the arguments of a raw
expression makes the render fail, at every position of the empty collection;
when a marker reaches the empty collection the message is the one spelled in
the usage guide: empty slice passed to Expr placeholder. -/
theorem raw_empty_collection_fails (tpl : List Char) (args : List Arg)
    (h : Arg.coll [] ∈ args) :
    ∃ e, expandChars tpl args = .error e :=
  expandChars_error_of_empty_coll tpl args h

/-- C7 witness: the failure evaluated with the empty collection in second
position. -/
theorem raw_empty_collection_fails_witness :
    ∃ e, expandChars "x = ? AND id IN ?".data [.scalar (.i 1), .coll []] =
      .error e :=
  raw_empty_collection_fails _ _ (by decide)

/-- C7 counterexample: the error message the engine produces differs from
the message quoted by the claim. -/
theorem raw_empty_collection_message_counterexample :
    expandChars "id IN ?".data [.coll []] =
      .error "empty slice passed to Expr placeholder" ∧
    "empty slice passed to Expr placeholder" ≠
      "empty collection passed where an argument was expected" :=
  ⟨rfl, by decide⟩

/-- C8 (amended): Not renders the word NOT followed by the child text
unchanged, propagating the child arguments unchanged and the child failure
unchanged; no additional parentheses are added, because conjunction children
already carry their own parentheses. -/
theorem not_render (c : Fragment) :
    (∀ t a, render c = .ok (t, a) →
      render (.negate c) = .ok ("NOT ".data ++ t, a)) ∧
    (∀ e, render c = .error e → render (.negate c) = .error e) := by
  constructor
  · intro t a h
    simp [render, h]
  · intro e h
    simp [render, h]

/-- C8 witness: Not evaluated on a single Predicate child. -/
theorem not_render_witness :
    render (.negate (.pred .eq [("status", .scalar (.s "banned"))])) =
      .ok ("NOT status = ?".data, [.s "banned"]) :=
  (not_render _).1 _ _ rfl

/-- C8 counterexample: for a multi-term Or child the claim predicts an extra
pair of parentheses around the child text; the engine emits none, because
the conjunction text is already parenthesized (Example_norOperation). -/
theorem not_render_counterexample :
    render norFrag = .ok ("(age = ? OR owner = ?)".data, [.i 20, .s "admin"]) ∧
    render (.negate norFrag) =
      .ok ("NOT (age = ? OR owner = ?)".data, [.i 20, .s "admin"]) ∧
    "NOT (age = ? OR owner = ?)".data ≠
      "NOT ".data ++ '(' :: ("(age = ? OR owner = ?)".data ++ [')']) :=
  ⟨rfl, rfl, by decide⟩

/-- C9: the Question format leaves the composed string unchanged, and the
Dollar format, on a text made of marker-free segments with one marker
between consecutive segments, replaces the k-th marker with the incrementing
dollar token for k, in one left-to-right scan, leaving all other text
unchanged. -/
theorem placeholder_rewrite :
    (∀ s : String, replacePlaceholders .question s = s) ∧
    (∀ (ss : List (List Char)) (k : Nat), (∀ s ∈ ss, '?' ∉ s) →
      dollarize (markerJoin ss) k = numberedJoin ss k) :=
  ⟨fun _ => rfl, dollarize_markerJoin⟩

/-- C9 witness: the Dollar rewrite evaluated on the statement of
TestDeleteBuilderPlaceholders. -/
theorem placeholder_rewrite_witness :
    replacePlaceholders .dollar "DELETE FROM test WHERE x = ? AND y = ?" =
      "DELETE FROM test WHERE x = $1 AND y = $2" := by
  have h := placeholder_rewrite.2
    ["DELETE FROM test WHERE x = ".data, " AND y = ".data, []] 1 (by decide)
  exact congrArg String.mk h

/-- C10: SelectBuilder.Where with a nil predicate or the empty string
returns the builder unchanged: no where part is appended, no arguments are
recorded, and the subsequent ToSql output is identical. -/
theorem select_where_identity (d : SelectData) (args : List Arg) :
    selectWhere d .nilP args = d ∧
    selectWhere d (.strP "") args = d ∧
    selToSql (selectWhere d .nilP args) = selToSql d ∧
    selToSql (selectWhere d (.strP "") args) = selToSql d :=
  ⟨rfl, rfl, rfl, rfl⟩

end Squirrel
